import Mathlib

/-!
Verification development for the Room/Fanout core of a minimal WebRTC SFU
(package sfu, file internal/sfu/room.go). The Go code is shallowly embedded:
Go maps become association lists, peer connections become natural-number
identifiers, and side effects (metric gauges and counters, peer-connection
Close calls, recorder closes, scheduled uploads) become explicit fields of a
state record that every operation threads through. Each embedded definition
mirrors one Go function; theorems at the end settle the specification claims.
-/

namespace SFU

/-- Peer connections are identified by natural numbers; the WebRTC library
object itself is opaque to the core. -/
abbrev PC := Nat

/-! ## Association-list helpers

Go maps (the Manager room map, the Prometheus label maps) are embedded as
association lists keyed by strings. -/

/-- Lookup in an association list (Go map read). -/
def alookup {α : Type} : List (String × α) → String → Option α
  | [], _ => none
  | p :: rest, k => if p.1 = k then some p.2 else alookup rest k

/-- Replace the value stored under a key (Go map write to an existing key). -/
def aset {α : Type} (l : List (String × α)) (k : String) (v : α) :
    List (String × α) :=
  l.map (fun p => if p.1 = k then (p.1, v) else p)

/-- Remove all entries under a key (Go map delete; real maps hold the key at
most once). -/
def aremove {α : Type} : List (String × α) → String → List (String × α)
  | [], _ => []
  | p :: rest, k => if p.1 = k then aremove rest k else p :: aremove rest k

/-- A Prometheus gauge/counter vector with a room label: room name to value.
Gauges may go negative, hence Int. -/
abbrev MetricMap := List (String × Int)

/-- Current value of a labelled series; a series never touched reads 0. -/
def mget (m : MetricMap) (k : String) : Int := (alookup m k).getD 0

/-- Add v to a labelled series, creating it at 0 first when absent. This is
GaugeVec.WithLabelValues(k).Add(v) / Inc / Dec and CounterVec Add. -/
def madd (m : MetricMap) (k : String) (v : Int) : MetricMap :=
  match alookup m k with
  | some _ => m.map (fun p => if p.1 = k then (p.1, p.2 + v) else p)
  | none => m ++ [(k, v)]

/-! ## TrackFanout -/

/-- Observable side effects of fanout closing: how many times a recorder
Close method was invoked, and which file paths had an asynchronous upload
scheduled (uploader.Upload in a fresh goroutine with a background context). -/
structure Effects where
  recorderCloses : Nat
  uploads : List String
deriving DecidableEq

/-- State of one trackFanout (struct trackFanout in room.go): the set of
subscriber peer connections holding a local track (field locals), the closed
channel modelled as a boolean flag, the optional recorder writer (Go field
rec, a nil-able rtpWriter; recWriter here because rec is reserved) and the
recorder target path (field recPath). -/
structure FanoutState where
  locals : List PC
  closed : Bool
  recWriter : Option Unit
  recPath : String
deriving DecidableEq

/-- Embeds trackFanout.setRecorder: installs the writer and its path. -/
def setRecorder (f : FanoutState) (p : String) : FanoutState :=
  { f with recWriter := some (), recPath := p }

/-- Embeds trackFanout.detachFromSubscriber: delete the locals entry for pc. -/
def detachFromSubscriber (f : FanoutState) (pc : PC) : FanoutState :=
  { f with locals := f.locals.filter (fun q => q ≠ pc) }

/-- Embeds trackFanout.attachToSubscriber on the success path: the locals map
gains an entry for pc. (Library failures make the function return before the
map insert; no claim here depends on a failed attachment.) -/
def attachToSubscriber (f : FanoutState) (pc : PC) : FanoutState :=
  { f with locals := f.locals ++ [pc] }

/-- Embeds trackFanout.close: the select on the closed channel returns at once
when the channel is already closed; otherwise the channel is closed, and under
the lock the recorder, if present, is closed, an upload of its path is
scheduled when the path is nonempty, and both recorder fields are cleared. -/
def trackFanoutClose (f : FanoutState) (e : Effects) : FanoutState × Effects :=
  if f.closed then (f, e)
  else
    let f2 : FanoutState := { f with closed := true }
    match f2.recWriter with
    | none => (f2, e)
    | some _ =>
      let e2 : Effects := { e with recorderCloses := e.recorderCloses + 1 }
      let e3 : Effects :=
        if f2.recPath = "" then e2
        else { e2 with uploads := e2.uploads ++ [f2.recPath] }
      ({ f2 with recWriter := none, recPath := "" }, e3)

/-- Runs k sequential invocations of trackFanout.close on the same fanout. -/
def trackFanoutCloseK : Nat → FanoutState → Effects → FanoutState × Effects
  | 0, f, e => (f, e)
  | k + 1, f, e =>
    let r := trackFanoutClose f e
    trackFanoutCloseK k r.1 r.2

/-- Close every fanout of a feeds map in order (the range loops in
Room.closePublisher and Room.Close), returning the post-close fanout states
and the accumulated effects. -/
def closeAllFeeds : List (String × FanoutState) → Effects →
    List FanoutState × Effects
  | [], e => ([], e)
  | p :: rest, e =>
    let r := trackFanoutClose p.2 e
    let q := closeAllFeeds rest r.2
    (r.1 :: q.1, q.2)

/-! ## Room and Manager -/

/-- Configuration fields the Room core reads (internal/config). -/
structure Config where
  maxSubsPerRoom : Int
  recordEnabled : Bool
  recordDir : String
deriving DecidableEq

/-- struct Room: name, at-most-one publisher connection, track-id keyed
fanouts (field trackFeeds), subscriber set (field subs). -/
structure Room where
  name : String
  publisher : Option PC
  trackFeeds : List (String × FanoutState)
  subs : List PC
deriving DecidableEq

/-- Embeds NewRoom. -/
def newRoom (name : String) : Room := ⟨name, none, [], []⟩

/-- Global state: the Manager room map, the rooms gauge, the per-room
subscribers gauge, fanout-close effects, the log of peer connections that had
Close invoked, and a log of the final states of fanouts closed by room-level
operations (in Go those states become garbage; the log records them so
theorems can speak about them). -/
structure Sys where
  cfg : Config
  rooms : List (String × Room)
  roomsGauge : Int
  subsGauge : MetricMap
  eff : Effects
  closedPCs : List PC
  feedLog : List FanoutState
deriving DecidableEq

/-- pc.Close(): recorded in the closed-connection log. -/
def closePC (s : Sys) (pc : PC) : Sys :=
  { s with closedPCs := s.closedPCs ++ [pc] }

/-- An optional publisher as a list, for stating which connections closed. -/
def optToList : Option PC → List PC
  | none => []
  | some pc => [pc]

/-- Close a list of peer connections in order (the range loop over the
subscriber snapshot in Room.Close). -/
def closePCList (s : Sys) : List PC → Sys
  | [] => s
  | pc :: rest => closePCList (closePC s pc) rest

/-- Embeds Room.Close: snapshot and clear publisher, feeds and subscribers
under the lock, then close the publisher connection, every fanout and every
subscriber connection outside the lock. -/
def roomClose (r : Room) (s : Sys) : Room × Sys :=
  let pub := r.publisher
  let feeds := r.trackFeeds
  let subsList := r.subs
  let r2 : Room := { r with publisher := none, trackFeeds := [], subs := [] }
  let s1 := match pub with
    | some pc => closePC s pc
    | none => s
  let cf := closeAllFeeds feeds s1.eff
  let s2 : Sys := { s1 with eff := cf.2, feedLog := s1.feedLog ++ cf.1 }
  let s3 := closePCList s2 subsList
  (r2, s3)

/-- Embeds Manager.CloseRoom: under the Manager lock remove the entry and
take the new map size; outside the lock, when the room was present, run
Room.Close and set the rooms gauge to the new size; report presence. -/
def managerCloseRoom (s : Sys) (name : String) : Sys × Bool :=
  match alookup s.rooms name with
  | none => (s, false)
  | some r =>
    let rooms2 := aremove s.rooms name
    let n : Int := rooms2.length
    let s1 : Sys := { s with rooms := rooms2 }
    let rc := roomClose r s1
    ({ rc.2 with roomsGauge := n }, true)

/-- Embeds Room.closePublisher at the room level: when pc is the current
publisher, close every fanout, swap in an empty feeds map and clear the
publisher slot; in either case pc.Close is invoked afterwards (handled by the
system-level wrapper). Returns the room, the effects, and the final states of
the fanouts that were closed. -/
def closePublisherRoom (r : Room) (pc : PC) (e : Effects) :
    Room × Effects × List FanoutState :=
  if r.publisher = some pc then
    let cf := closeAllFeeds r.trackFeeds e
    ({ r with trackFeeds := [], publisher := none }, cf.2, cf.1)
  else (r, e, [])

/-- Room.closePublisher acting on the room registered under name: update the
room in place, then unconditionally call pc.Close (the Go function ends with
pc.Close() outside the if). -/
def sysClosePublisher (s : Sys) (name : String) (pc : PC) : Sys :=
  match alookup s.rooms name with
  | none => closePC s pc
  | some r =>
    let res := closePublisherRoom r pc s.eff
    let s1 : Sys := { s with
      rooms := aset s.rooms name res.1,
      eff := res.2.1,
      feedLog := s.feedLog ++ res.2.2 }
    closePC s1 pc

/-- Embeds the locked part of Room.removeSubscriber: when pc is a registered
subscriber, detach it from every fanout and delete it from the set. -/
def removeSubscriberRoom (r : Room) (pc : PC) : Room :=
  if r.subs.contains pc then
    { r with
      trackFeeds := r.trackFeeds.map (fun p => (p.1, detachFromSubscriber p.2 pc)),
      subs := r.subs.filter (fun q => q ≠ pc) }
  else r

/-- Room.removeSubscriber on the room registered under name: the locked part,
then pc.Close, then metrics.DecSubscribers - the decrement is outside the
membership check and runs unconditionally, exactly as in the source. -/
def sysRemoveSubscriber (s : Sys) (name : String) (pc : PC) : Sys :=
  match alookup s.rooms name with
  | none =>
    let s1 := closePC s pc
    { s1 with subsGauge := madd s1.subsGauge name (-1) }
  | some r =>
    let s1 : Sys := { s with rooms := aset s.rooms name (removeSubscriberRoom r pc) }
    let s2 := closePC s1 pc
    { s2 with subsGauge := madd s2.subsGauge name (-1) }

/-- Outcome kinds of Room.Subscribe. -/
inductive SubResult
  | subscriberLimit
  | negotiationFailed
  | okDone
deriving DecidableEq

/-- Result of Room.Subscribe: the updated room, the updated subscribers
gauge, the outcome, whether a peer connection was created, and whether the
created peer connection was closed on failure. -/
structure SubOut where
  room : Room
  gauge : MetricMap
  res : SubResult
  pcCreated : Bool
  pcClosed : Bool
deriving DecidableEq

/-- Embeds Room.Subscribe. Order follows the source: the subscriber-limit
check (only when MaxSubsPerRoom > 0) runs before the peer connection is
created; then every existing fanout is attached to the new connection; then
SDP negotiation (abstracted by negOk - the library is external) either fails,
closing pc, or succeeds, after which pc joins the subscriber set and
metrics.IncSubscribers runs. -/
def roomSubscribe (cfg : Config) (r : Room) (g : MetricMap) (negOk : Bool)
    (pc : PC) : SubOut :=
  if 0 < cfg.maxSubsPerRoom ∧ cfg.maxSubsPerRoom ≤ (r.subs.length : Int) then
    ⟨r, g, .subscriberLimit, false, false⟩
  else
    let r1 : Room := { r with
      trackFeeds := r.trackFeeds.map (fun p => (p.1, attachToSubscriber p.2 pc)) }
    if negOk then
      let r2 : Room :=
        { r1 with subs := if r1.subs.contains pc then r1.subs else r1.subs ++ [pc] }
      ⟨r2, madd g r.name 1, .okDone, true, false⟩
    else ⟨r1, g, .negotiationFailed, true, true⟩

/-- Outcome kinds of Room.Publish. -/
inductive PubResult
  | publisherExists
  | negotiationFailed
  | okDone
deriving DecidableEq

/-- Result of Room.Publish: updated room, outcome, and whether a created
peer connection was closed on failure. -/
structure PubOut where
  room : Room
  res : PubResult
  pcClosed : Bool
deriving DecidableEq

/-- Embeds the sequential path of Room.Publish: under the lock, reject when a
publisher exists; then PopulateFromSDP validates the offer (offerValid false
models a malformed offer, rejected before the peer connection is built); on
success the connection is stored as publisher. The check-then-install race is
modelled separately by the interleaving semantics below. -/
def roomPublish (r : Room) (offerValid : Bool) (pc : PC) : PubOut :=
  if r.publisher.isSome then ⟨r, .publisherExists, false⟩
  else if offerValid then ⟨{ r with publisher := some pc }, .okDone, false⟩
  else ⟨r, .negotiationFailed, false⟩

/-- Embeds Manager.getOrCreateRoom: under the Manager lock return the
existing room, or insert a fresh one and set the rooms gauge to the new map
size. -/
def getOrCreateRoom (s : Sys) (name : String) : Sys × Room :=
  match alookup s.rooms name with
  | some r => (s, r)
  | none =>
    let r := newRoom name
    let rooms2 := s.rooms ++ [(name, r)]
    ({ s with rooms := rooms2, roomsGauge := (rooms2.length : Int) }, r)

/-- Embeds Manager.Publish: obtain-or-create the room, then Room.Publish;
the updated room replaces the registered one. -/
def managerPublish (s : Sys) (name : String) (offerValid : Bool) (pc : PC) :
    Sys × PubResult :=
  let gr := getOrCreateRoom s name
  let out := roomPublish gr.2 offerValid pc
  ({ gr.1 with
      rooms := aset gr.1.rooms name out.room,
      closedPCs := if out.pcClosed then gr.1.closedPCs ++ [pc] else gr.1.closedPCs },
    out.res)

/-- Embeds Manager.Subscribe: obtain-or-create the room, then
Room.Subscribe. -/
def managerSubscribe (s : Sys) (name : String) (negOk : Bool) (pc : PC) :
    Sys × SubResult :=
  let gr := getOrCreateRoom s name
  let out := roomSubscribe gr.1.cfg gr.2 gr.1.subsGauge negOk pc
  ({ gr.1 with
      rooms := aset gr.1.rooms name out.room,
      subsGauge := out.gauge,
      closedPCs := if out.pcClosed then gr.1.closedPCs ++ [pc] else gr.1.closedPCs },
    out.res)

/-- RoomInfo snapshot value. -/
structure RoomInfo where
  name : String
  hasPublisher : Bool
  tracks : Nat
  subscribers : Nat
deriving DecidableEq

/-- Modelled from the spec: Room.stats is invoked by Manager.ListRooms and by
the tests, but its body is not among the provided sources. The spec defines
the RoomInfo snapshot as name, has-publisher flag, track count and subscriber
count. -/
def roomStats (r : Room) : RoomInfo :=
  ⟨r.name, r.publisher.isSome, r.trackFeeds.length, r.subs.length⟩

/-- Embeds Manager.ListRooms: snapshot of every registered room. -/
def listRooms (s : Sys) : List RoomInfo := s.rooms.map (fun p => roomStats p.2)

/-! ## Interleaving semantics for the Publish publisher-slot protocol

Room.Publish touches the shared publisher slot in exactly two lock-protected
critical sections: the emptiness check at entry (room.go lines 153-158) and
the install at the end (lines 244-246); negotiation between them runs with
the lock released. Two concurrent Publish calls are modelled as two threads,
each a sequence of those two atomic actions, driven by a schedule. -/

/-- Position of a Publish thread in its two critical sections. -/
inductive PubPhase
  | toCheck
  | toInstall
  | doneOk
  | doneRejected
deriving DecidableEq

/-- One in-flight Publish call: its phase and the peer connection it will
install. -/
structure PubThread where
  phase : PubPhase
  pc : PC
deriving DecidableEq

/-- Shared publisher slot plus two Publish threads. -/
structure RaceState where
  pub : Option PC
  t0 : PubThread
  t1 : PubThread
deriving DecidableEq

/-- Execute the next critical section of one thread against the slot: the
check rejects when the slot is occupied and otherwise proceeds; the install
writes the slot unconditionally, exactly as lines 244-246 do (no re-check). -/
def pubThreadStep (pub : Option PC) (t : PubThread) : Option PC × PubThread :=
  match t.phase with
  | .toCheck =>
    if pub.isSome then (pub, { t with phase := .doneRejected })
    else (pub, { t with phase := .toInstall })
  | .toInstall => (some t.pc, { t with phase := .doneOk })
  | _ => (pub, t)

/-- Run one scheduled step: false schedules thread 0, true thread 1. -/
def raceStep (s : RaceState) (i : Bool) : RaceState :=
  if i then
    let r := pubThreadStep s.pub s.t1
    { s with pub := r.1, t1 := r.2 }
  else
    let r := pubThreadStep s.pub s.t0
    { s with pub := r.1, t0 := r.2 }

/-- Run a whole schedule. -/
def raceRun (s : RaceState) (sched : List Bool) : RaceState :=
  sched.foldl raceStep s

/-- Two Publish calls racing on an initially empty room. -/
def raceInit : RaceState := ⟨none, ⟨.toCheck, 100⟩, ⟨.toCheck, 200⟩⟩

/-! ## The read loop metrics tap -/

/-- The two per-room ingress counters of the read loop. -/
structure LoopCounters where
  bytesTotal : MetricMap
  pktsTotal : MetricMap
deriving DecidableEq

/-- Writes performed downstream of the parse: packets handed to the recorder
and packets written to subscriber local tracks (content abstracted as the
parsed representation). -/
structure LoopLog where
  recWrites : List (List Nat)
  subWrites : List (PC × List Nat)
deriving DecidableEq

/-- One iteration of trackFanout.readLoop after a successful remote read of
dgram: the closed check, then metrics.AddBytes and metrics.IncPackets, then
rtp Unmarshal (the parse function stands for the external library; none is a
malformed datagram, which is skipped), then the recorder write when a
recorder is installed, then one write per subscriber local track. -/
def readLoopStep (parse : List Nat → Option (List Nat)) (room : String)
    (f : FanoutState) (dgram : List Nat) (c : LoopCounters) (lg : LoopLog) :
    LoopCounters × LoopLog :=
  if f.closed then (c, lg)
  else
    let c2 : LoopCounters :=
      ⟨madd c.bytesTotal room (dgram.length : Int), madd c.pktsTotal room 1⟩
    match parse dgram with
    | none => (c2, lg)
    | some pkt =>
      let lg2 : LoopLog :=
        if f.recWriter.isSome then { lg with recWrites := lg.recWrites ++ [pkt] }
        else lg
      let lg3 : LoopLog :=
        { lg2 with subWrites := lg2.subWrites ++ f.locals.map (fun pc => (pc, pkt)) }
      (c2, lg3)

/-! ## Per-subscriber packet cloning

The fan-out write clones the parsed packet per subscriber: clone := *pkt
copies every scalar header field by value and copies the slice headers of
Header.CSRC, Header.Extensions and Payload; then, when Payload is non-nil,
the payload bytes are copied into a fresh backing array. Backing arrays live
in an explicit store of cells; a slice is a cell reference. -/

/-- Backing-array store; a cell index is a slice reference. -/
structure Store where
  cells : List (List Nat)
deriving DecidableEq

/-- Allocate a fresh backing array. -/
def Store.alloc (st : Store) (v : List Nat) : Store × Nat :=
  (⟨st.cells ++ [v]⟩, st.cells.length)

/-- Read a backing array through a reference. -/
def Store.readCell (st : Store) (r : Nat) : List Nat :=
  (st.cells.get? r).getD []

/-- Overwrite a backing array in place (a send-side mutation). -/
def Store.writeCell (st : Store) (r : Nat) (v : List Nat) : Store :=
  ⟨st.cells.set r v⟩

/-- rtp.Header: scalar fields by value, CSRC and Extensions as references
into the store. -/
structure RtpHeader where
  version : Nat
  padding : Bool
  extensionFlag : Bool
  marker : Bool
  payloadType : Nat
  sequenceNumber : Nat
  timestamp : Nat
  ssrc : Nat
  csrcRef : Nat
  extensionProfile : Nat
  extensionsRef : Nat
deriving DecidableEq

/-- rtp.Packet: the header plus the payload slice (none embeds a nil
slice). -/
structure RtpPacket where
  header : RtpHeader
  payloadRef : Option Nat
deriving DecidableEq

/-- clone := *pkt followed by the conditional payload copy: the struct copy
keeps the same csrcRef and extensionsRef; a non-nil payload is copied into a
freshly allocated cell. -/
def clonePacket (st : Store) (pkt : RtpPacket) : Store × RtpPacket :=
  match pkt.payloadRef with
  | none => (st, pkt)
  | some r =>
    let a := st.alloc (st.readCell r)
    (a.1, { pkt with payloadRef := some a.2 })

/-- The fan-out loop body: one clone per subscriber, in order. -/
def fanoutClones (st : Store) (pkt : RtpPacket) : Nat → Store × List RtpPacket
  | 0 => (st, [])
  | k + 1 =>
    let c := clonePacket st pkt
    let rest := fanoutClones c.1 pkt k
    (rest.1, c.2 :: rest.2)

/-- The payload bytes a subscriber observes for its delivered packet. -/
def observePayload (st : Store) (p : RtpPacket) : Option (List Nat) :=
  p.payloadRef.map (fun r => st.readCell r)

/-- The CSRC words a subscriber observes for its delivered packet. -/
def observeCsrc (st : Store) (p : RtpPacket) : List Nat :=
  st.readCell p.header.csrcRef

/-! ## RecordingHook (the OnTrack recorder installation) -/

def mimeTypeOpus : String := "audio/opus"

def mimeTypeVP8 : String := "video/VP8"

def mimeTypeVP9 : String := "video/VP9"

/-- The container writer kind opened for a track, with its open
parameters. -/
inductive RecKind
  | ogg (sampleRate : Nat) (channels : Nat)
  | ivf
deriving DecidableEq

/-- Filesystem-visible outcome of the recorder installation block: the
MkdirAll call (directory, mode) when recording is enabled, and the writer
kind and path installed on the fanout, when any. -/
structure RecDecision where
  mkdirAll : Option (String × Nat)
  recorder : Option (RecKind × String)
deriving DecidableEq

/-- Embeds the recording block of the OnTrack handler in Room.Publish
(room.go lines 208-225): when RecordEnabled, MkdirAll(RecordDir, 0o755),
base := room + underscore + trackID + underscore + unix seconds, then by
codec MIME: Opus opens an OGG writer (48000 Hz, 2 channels) at base.ogg,
VP8 or VP9 opens an IVF writer at base.ivf, anything else installs nothing.
openOk embeds the writer constructor returning nil error; on failure the
fanout is left without a recorder. -/
def onTrackRecorder (recordEnabled : Bool) (recordDir roomName trackID : String)
    (unixTs : Nat) (mime : String) (openOk : Bool) : RecDecision :=
  if recordEnabled then
    let base := roomName ++ "_" ++ trackID ++ "_" ++ toString unixTs
    if mime = mimeTypeOpus then
      let p := recordDir ++ "/" ++ base ++ ".ogg"
      ⟨some (recordDir, 0o755), if openOk then some (.ogg 48000 2, p) else none⟩
    else if mime = mimeTypeVP8 ∨ mime = mimeTypeVP9 then
      let p := recordDir ++ "/" ++ base ++ ".ivf"
      ⟨some (recordDir, 0o755), if openOk then some (.ivf, p) else none⟩
    else ⟨some (recordDir, 0o755), none⟩
  else ⟨none, none⟩

/-- Apply the decision to the fanout: feed.setRecorder on success, nothing
otherwise. -/
def applyRecDecision (d : RecDecision) (f : FanoutState) : FanoutState :=
  match d.recorder with
  | some (_, p) => setRecorder f p
  | none => f

/-! ## Concrete demonstration values used by witnesses and counterexamples -/

/-- A configuration with no subscriber cap and recording off. -/
def cfgDemo : Config := ⟨0, false, "records"⟩

/-- A fanout with one subscriber and an installed recorder. -/
def fanoutDemo : FanoutState := ⟨[3], false, some (), "records/demo_t1_5.ogg"⟩

/-- Effects accumulator starting empty. -/
def effDemo : Effects := ⟨0, []⟩

/-- A room with a publisher, one recorded track and two subscribers. -/
def roomDemo : Room := ⟨"demo", some 7, [("t1", fanoutDemo)], [3, 4]⟩

/-- A system registering roomDemo. -/
def sysDemo : Sys := ⟨cfgDemo, [("demo", roomDemo)], 1, [("demo", 2)], effDemo, [], []⟩

/-- A system with one freshly created empty room. -/
def sysEmptyRoom : Sys := ⟨cfgDemo, [("r", newRoom "r")], 1, [], effDemo, [], []⟩

/-- Store for the cloning demonstration: cell 0 is the CSRC backing array,
cell 1 the payload backing array. -/
def storeDemo : Store := ⟨[[5], [1, 2]]⟩

/-- Header whose CSRC slice references cell 0. -/
def hdrDemo : RtpHeader := ⟨2, false, false, false, 96, 10, 1000, 42, 0, 0, 0⟩

/-- Parsed source packet: header plus payload referencing cell 1. -/
def pktDemo : RtpPacket := ⟨hdrDemo, some 1⟩

/-- The second clone produced by fanning pktDemo out to two subscribers: its
payload was copied into the fresh cell 3, its header still references cell 0
for CSRC. -/
def cloneDemo1 : RtpPacket := ⟨hdrDemo, some 3⟩

/-! ## Helper lemmas: association lists and metric maps -/

lemma alookup_append_none {α : Type} (l t : List (String × α)) (k : String)
    (h : alookup l k = none) : alookup (l ++ t) k = alookup t k := by
  induction l with
  | nil => rfl
  | cons p rest ih =>
    by_cases hp : p.1 = k
    · simp [alookup, hp] at h
    · simp only [alookup, hp, if_false, List.cons_append] at h ⊢
      exact ih h

lemma alookup_eq_none_of_not_mem {α : Type} (l : List (String × α)) (k : String)
    (h : k ∉ l.map Prod.fst) : alookup l k = none := by
  induction l with
  | nil => rfl
  | cons p rest ih =>
    simp only [List.map_cons, List.mem_cons] at h
    push_neg at h
    simp only [alookup]
    rw [if_neg (fun hc => h.1 hc.symm)]
    exact ih h.2

lemma aset_of_lookup_none {α : Type} (l : List (String × α)) (k : String) (v : α)
    (h : alookup l k = none) : aset l k v = l := by
  induction l with
  | nil => rfl
  | cons p rest ih =>
    by_cases hp : p.1 = k
    · simp [alookup, hp] at h
    · simp only [alookup, hp, if_false] at h
      have := ih h
      simp only [aset, List.map_cons, if_neg hp] at this ⊢
      rw [this]

lemma alookup_aset {α : Type} (l : List (String × α)) (k : String) (v : α) :
    alookup (aset l k v) k = (alookup l k).map (fun _ => v) := by
  induction l with
  | nil => rfl
  | cons p rest ih =>
    by_cases hp : p.1 = k
    · simp [aset, alookup, hp]
    · simp only [aset, List.map_cons, if_neg hp] at ih ⊢
      simp [alookup, hp, ih]

lemma aset_self {α : Type} (l : List (String × α)) (k : String) (v : α)
    (hnd : (l.map Prod.fst).Nodup) (h : alookup l k = some v) : aset l k v = l := by
  induction l with
  | nil => simp [alookup] at h
  | cons p rest ih =>
    simp only [List.map_cons, List.nodup_cons] at hnd
    by_cases hp : p.1 = k
    · have hv : p.2 = v := by simpa [alookup, hp] using h
      have hnone : alookup rest k = none := by
        apply alookup_eq_none_of_not_mem
        rw [← hp]
        exact hnd.1
      have hrest : aset rest k v = rest := aset_of_lookup_none rest k v hnone
      simp only [aset, List.map_cons, if_pos hp] at hrest ⊢
      rw [hrest, ← hv]
    · have h2 : alookup rest k = some v := by simpa [alookup, hp] using h
      have := ih hnd.2 h2
      simp only [aset, List.map_cons, if_neg hp] at this ⊢
      rw [this]

lemma alookup_aremove_self {α : Type} (l : List (String × α)) (k : String) :
    alookup (aremove l k) k = none := by
  induction l with
  | nil => rfl
  | cons p rest ih =>
    by_cases hp : p.1 = k
    · simpa [aremove, hp] using ih
    · simpa [aremove, alookup, hp] using ih

lemma mem_aremove {α : Type} (l : List (String × α)) (k : String)
    (p : String × α) (h : p ∈ aremove l k) : p ∈ l ∧ p.1 ≠ k := by
  induction l with
  | nil => simp [aremove] at h
  | cons q rest ih =>
    by_cases hq : q.1 = k
    · simp only [aremove, if_pos hq] at h
      exact ⟨List.mem_cons_of_mem q (ih h).1, (ih h).2⟩
    · simp only [aremove, if_neg hq, List.mem_cons] at h
      cases h with
      | inl he => exact ⟨by simp [he], by simp [he, hq]⟩
      | inr hm => exact ⟨List.mem_cons_of_mem q (ih hm).1, (ih hm).2⟩

lemma alookup_map_add (m : MetricMap) (k : String) (v : Int) :
    alookup (m.map (fun p => if p.1 = k then (p.1, p.2 + v) else p)) k =
      (alookup m k).map (fun x => x + v) := by
  induction m with
  | nil => rfl
  | cons p rest ih =>
    by_cases hp : p.1 = k
    · simp [alookup, hp]
    · simp [alookup, hp, ih]

lemma mget_madd_self (m : MetricMap) (k : String) (v : Int) :
    mget (madd m k v) k = mget m k + v := by
  unfold madd
  cases hl : alookup m k with
  | none =>
    unfold mget
    rw [alookup_append_none m [(k, v)] k hl]
    simp [alookup, hl]
  | some a =>
    unfold mget
    rw [alookup_map_add, hl]
    simp

/-! ## Helper lemmas: fanout close -/

lemma trackFanoutClose_closed (f : FanoutState) (e : Effects) (h : f.closed = true) :
    trackFanoutClose f e = (f, e) := by
  simp [trackFanoutClose, h]

lemma trackFanoutClose_post_closed (f : FanoutState) (e : Effects) :
    (trackFanoutClose f e).1.closed = true := by
  unfold trackFanoutClose
  by_cases h : f.closed
  · simp [h]
  · simp only [h]
    cases f.recWriter <;> simp

lemma trackFanoutCloseK_succ_closed (k : Nat) (f : FanoutState) (e : Effects)
    (h : f.closed = true) : trackFanoutCloseK k f e = (f, e) := by
  induction k with
  | zero => rfl
  | succ n ih => simp [trackFanoutCloseK, trackFanoutClose_closed f e h, ih]

lemma trackFanoutCloseK_eq_one (k : Nat) (f : FanoutState) (e : Effects)
    (hk : 1 ≤ k) : trackFanoutCloseK k f e = trackFanoutClose f e := by
  obtain ⟨n, rfl⟩ : ∃ n, k = n + 1 := ⟨k - 1, by omega⟩
  show trackFanoutCloseK (n + 1) f e = trackFanoutClose f e
  simp only [trackFanoutCloseK]
  exact trackFanoutCloseK_succ_closed n _ _ (trackFanoutClose_post_closed f e)

lemma trackFanoutClose_post_rec_none (f : FanoutState) (e : Effects)
    (h : f.closed = false ∨ f.recWriter = none) :
    (trackFanoutClose f e).1.recWriter = none := by
  unfold trackFanoutClose
  by_cases hc : f.closed
  · rcases h with h | h
    · rw [hc] at h; cases h
    · simpa [hc] using h
  · simp only [hc]
    cases f.recWriter <;> simp

lemma closeAllFeeds_all_closed (feeds : List (String × FanoutState)) (e : Effects) :
    ∀ f ∈ (closeAllFeeds feeds e).1, f.closed = true := by
  induction feeds generalizing e with
  | nil => intro f hf; simp [closeAllFeeds] at hf
  | cons p rest ih =>
    intro f hf
    simp only [closeAllFeeds, List.mem_cons] at hf
    cases hf with
    | inl he => rw [he]; exact trackFanoutClose_post_closed p.2 e
    | inr hm => exact ih _ f hm

lemma closeAllFeeds_all_rec_none (feeds : List (String × FanoutState)) (e : Effects)
    (hyp : ∀ p ∈ feeds, p.2.closed = false ∨ p.2.recWriter = none) :
    ∀ f ∈ (closeAllFeeds feeds e).1, f.recWriter = none := by
  induction feeds generalizing e with
  | nil => intro f hf; simp [closeAllFeeds] at hf
  | cons p rest ih =>
    intro f hf
    simp only [closeAllFeeds, List.mem_cons] at hf
    cases hf with
    | inl he =>
      rw [he]
      exact trackFanoutClose_post_rec_none p.2 e (hyp p (List.mem_cons_self p rest))
    | inr hm =>
      exact ih _ (fun q hq => hyp q (List.mem_cons_of_mem p hq)) f hm

/-! ## Helper lemmas: system-level close operations -/

lemma closePCList_spec (l : List PC) (s : Sys) :
    closePCList s l = { s with closedPCs := s.closedPCs ++ l } := by
  induction l generalizing s with
  | nil => simp [closePCList]
  | cons a rest ih =>
    simp only [closePCList]
    rw [ih]
    simp [closePC]

lemma roomClose_snd (r : Room) (s : Sys) :
    (roomClose r s).2 = { s with
      eff := (closeAllFeeds r.trackFeeds s.eff).2,
      feedLog := s.feedLog ++ (closeAllFeeds r.trackFeeds s.eff).1,
      closedPCs := s.closedPCs ++ optToList r.publisher ++ r.subs } := by
  unfold roomClose
  cases hp : r.publisher with
  | none => simp [closePCList_spec, optToList]
  | some pc => simp [closePCList_spec, closePC, optToList, List.append_assoc]

/-! ## Claim C3 -/

/-- Claim C3: trackFanout.close is idempotent: for every k at least 1, k
sequential close calls have the same observable effect as one; a call on an
already-closed fanout changes nothing; and the first close of an open fanout
with an installed recorder closes the recorder exactly once and, when the
recorder path is nonempty, schedules exactly one upload of that path. -/
theorem trackFanoutClose_idempotent (k : Nat) (f : FanoutState) (e : Effects)
    (hk : 1 ≤ k) :
    trackFanoutCloseK k f e = trackFanoutClose f e ∧
    (f.closed = true → trackFanoutCloseK k f e = (f, e)) ∧
    (f.closed = false → f.recWriter = some () →
      (trackFanoutCloseK k f e).2.recorderCloses = e.recorderCloses + 1 ∧
      (f.recPath ≠ "" → (trackFanoutCloseK k f e).2.uploads = e.uploads ++ [f.recPath])) := by
  refine ⟨trackFanoutCloseK_eq_one k f e hk, ?_, ?_⟩
  · intro hc
    exact trackFanoutCloseK_succ_closed k f e hc
  · intro hc hr
    rw [trackFanoutCloseK_eq_one k f e hk]
    unfold trackFanoutClose
    simp only [hc, Bool.false_eq_true, if_false, hr]
    by_cases hp : f.recPath = "" <;> simp [hp]

/-- Witness for C3 at a concrete fanout, three close calls. -/
theorem trackFanoutClose_idempotent_witness :
    trackFanoutCloseK 3 fanoutDemo effDemo = trackFanoutClose fanoutDemo effDemo ∧
    (fanoutDemo.closed = true → trackFanoutCloseK 3 fanoutDemo effDemo = (fanoutDemo, effDemo)) ∧
    (fanoutDemo.closed = false → fanoutDemo.recWriter = some () →
      (trackFanoutCloseK 3 fanoutDemo effDemo).2.recorderCloses = effDemo.recorderCloses + 1 ∧
      (fanoutDemo.recPath ≠ "" →
        (trackFanoutCloseK 3 fanoutDemo effDemo).2.uploads = effDemo.uploads ++ [fanoutDemo.recPath])) :=
  trackFanoutClose_idempotent 3 fanoutDemo effDemo (by decide)

/-! ## Claim C1 -/

/-- Claim C1 (code-bug exhibit): the publisher-slot protocol of Room.Publish
as executed over its two lock-protected critical sections. Under the
sequential schedule the second Publish is rejected (PublisherExists) and the
slot keeps the first publisher, matching the claim; but under the schedule
where both emptiness checks run before either install, both Publish calls
succeed and the second install overwrites the first publisher - the claimed
invariant fails on that interleaving because the install section (room.go
lines 244-246) never re-checks the slot. -/
theorem publish_race_both_succeed :
    raceRun raceInit [false, false, true] =
      ⟨some 100, ⟨.doneOk, 100⟩, ⟨.doneRejected, 200⟩⟩ ∧
    raceRun raceInit [false, true, false, true] =
      ⟨some 200, ⟨.doneOk, 100⟩, ⟨.doneOk, 200⟩⟩ := by
  exact ⟨rfl, rfl⟩

/-! ## Claim C2 -/

/-- Claim C2 (code-bug exhibit): Subscribe one peer connection into room r,
then run removeSubscriber twice for it (ICE fires the callback once per
terminal state, so a double invocation is reachable). The subscriber set ends
empty but the subscribers gauge ends at -1, because metrics.DecSubscribers
runs outside the membership check: the gauge does not equal the set size at
the quiescent moment, and the net gauge change (-1) differs from the net
set-size change (0) over the two removals. -/
theorem removeSubscriber_gauge_diverges :
    mget (sysRemoveSubscriber (sysRemoveSubscriber
      (managerSubscribe sysEmptyRoom "r" true 1).1 "r" 1) "r" 1).subsGauge "r" = -1 ∧
    (alookup (sysRemoveSubscriber (sysRemoveSubscriber
      (managerSubscribe sysEmptyRoom "r" true 1).1 "r" 1) "r" 1).rooms "r").map
      (fun rm => rm.subs.length) = some 0 := by
  exact ⟨rfl, rfl⟩

/-! ## Claim C5 -/

/-- Claim C5 counterexample: in a registered room whose publisher slot is
empty, closePublisher with peer connection 3 is not a no-op - the Go function
ends with an unconditional pc.Close, so connection 3 is closed even though it
is not the current publisher. -/
theorem closePublisher_not_noop_counterexample :
    (alookup sysEmptyRoom.rooms "r").map Room.publisher = some none ∧
    (sysClosePublisher sysEmptyRoom "r" 3).closedPCs = [3] ∧
    sysClosePublisher sysEmptyRoom "r" 3 ≠ sysEmptyRoom := by
  refine ⟨rfl, rfl, by decide⟩

/-! ## Claim C8 -/

/-- Claim C8: when MaxSubsPerRoom is positive and the subscriber count is at
or above it, Subscribe fails with SubscriberLimit before any peer connection
is created and leaves the room (subscriber set, feeds map, publisher slot)
and the gauge unchanged; when MaxSubsPerRoom is 0 the limit branch is never
taken. -/
theorem subscribe_limit_enforced (cfg : Config) (r : Room) (g : MetricMap)
    (negOk : Bool) (pc : PC) :
    (0 < cfg.maxSubsPerRoom → cfg.maxSubsPerRoom ≤ (r.subs.length : Int) →
      roomSubscribe cfg r g negOk pc = ⟨r, g, .subscriberLimit, false, false⟩) ∧
    (cfg.maxSubsPerRoom = 0 →
      (roomSubscribe cfg r g negOk pc).res ≠ .subscriberLimit) := by
  constructor
  · intro h1 h2
    unfold roomSubscribe
    rw [if_pos ⟨h1, h2⟩]
  · intro h0
    unfold roomSubscribe
    rw [if_neg (by rw [h0]; simp)]
    cases negOk <;> simp

/-- Witness for C8: roomDemo holds 2 subscribers; with a cap of 1 the limit
fires, with cap 0 it cannot. -/
theorem subscribe_limit_enforced_witness :
    roomSubscribe ⟨1, false, "records"⟩ roomDemo [] true 9 =
      ⟨roomDemo, [], .subscriberLimit, false, false⟩ ∧
    (roomSubscribe cfgDemo roomDemo [] true 9).res ≠ .subscriberLimit :=
  ⟨(subscribe_limit_enforced ⟨1, false, "records"⟩ roomDemo [] true 9).1
      (by decide) (by decide),
   (subscribe_limit_enforced cfgDemo roomDemo [] true 9).2 (by decide)⟩

/-! ## Claim C9 -/

/-- Claim C9: the recorder installation of the OnTrack handler. With
recording enabled, an Opus track gets an OGG writer opened with 48000 Hz and
2 channels at RecordDir slash room_trackID_unixSeconds dot ogg; VP8 and VP9
get an IVF writer at the same basename with extension ivf; any other MIME
installs no recorder and leaves the fanout unchanged; a writer-open failure
installs no recorder and leaves the fanout unchanged; with recording enabled
the record directory is created with mode 0755. -/
theorem recorder_selection (en : Bool) (dir room tid : String) (ts : Nat)
    (mime : String) (ok : Bool) (f : FanoutState) :
    (en = true → ok = true → mime = mimeTypeOpus →
      onTrackRecorder en dir room tid ts mime ok =
        ⟨some (dir, 0o755),
         some (.ogg 48000 2, dir ++ "/" ++ (room ++ "_" ++ tid ++ "_" ++ toString ts) ++ ".ogg")⟩) ∧
    (en = true → ok = true → (mime = mimeTypeVP8 ∨ mime = mimeTypeVP9) →
      onTrackRecorder en dir room tid ts mime ok =
        ⟨some (dir, 0o755),
         some (.ivf, dir ++ "/" ++ (room ++ "_" ++ tid ++ "_" ++ toString ts) ++ ".ivf")⟩) ∧
    (en = true → mime ≠ mimeTypeOpus → mime ≠ mimeTypeVP8 → mime ≠ mimeTypeVP9 →
      (onTrackRecorder en dir room tid ts mime ok).recorder = none ∧
      applyRecDecision (onTrackRecorder en dir room tid ts mime ok) f = f) ∧
    (ok = false → (onTrackRecorder en dir room tid ts mime ok).recorder = none ∧
      applyRecDecision (onTrackRecorder en dir room tid ts mime ok) f = f) ∧
    (en = true → (onTrackRecorder en dir room tid ts mime ok).mkdirAll = some (dir, 0o755)) := by
  refine ⟨?_, ?_, ?_, ?_, ?_⟩
  · intro hen hok hm
    subst hen; subst hok; subst hm
    simp [onTrackRecorder]
  · intro hen hok hm
    subst hen; subst hok
    rcases hm with hm | hm <;> subst hm <;>
      simp [onTrackRecorder, mimeTypeOpus, mimeTypeVP8, mimeTypeVP9]
  · intro hen h1 h2 h3
    subst hen
    unfold onTrackRecorder
    rw [if_pos rfl, if_neg h1, if_neg (by simp [h2, h3])]
    cases ok <;> exact ⟨rfl, rfl⟩
  · intro hok
    subst hok
    unfold onTrackRecorder
    cases en with
    | false => exact ⟨rfl, rfl⟩
    | true =>
      rw [if_pos rfl]
      by_cases h1 : mime = mimeTypeOpus
      · rw [if_pos h1]; exact ⟨rfl, rfl⟩
      · rw [if_neg h1]
        by_cases h2 : mime = mimeTypeVP8 ∨ mime = mimeTypeVP9
        · rw [if_pos h2]; exact ⟨rfl, rfl⟩
        · rw [if_neg h2]; exact ⟨rfl, rfl⟩
  · intro hen
    subst hen
    unfold onTrackRecorder
    rw [if_pos rfl]
    by_cases h1 : mime = mimeTypeOpus
    · rw [if_pos h1]
    · rw [if_neg h1]
      by_cases h2 : mime = mimeTypeVP8 ∨ mime = mimeTypeVP9
      · rw [if_pos h2]
      · rw [if_neg h2]

/-- Witness for C9 at concrete inputs for every branch. -/
theorem recorder_selection_witness :
    onTrackRecorder true "rec" "demo" "t1" 5 mimeTypeOpus true =
      ⟨some ("rec", 0o755),
       some (.ogg 48000 2, "rec" ++ "/" ++ ("demo" ++ "_" ++ "t1" ++ "_" ++ toString 5) ++ ".ogg")⟩ ∧
    onTrackRecorder true "rec" "demo" "t1" 5 mimeTypeVP8 true =
      ⟨some ("rec", 0o755),
       some (.ivf, "rec" ++ "/" ++ ("demo" ++ "_" ++ "t1" ++ "_" ++ toString 5) ++ ".ivf")⟩ ∧
    (onTrackRecorder true "rec" "demo" "t1" 5 "video/H264" true).recorder = none ∧
    (onTrackRecorder true "rec" "demo" "t1" 5 mimeTypeOpus false).recorder = none ∧
    applyRecDecision (onTrackRecorder true "rec" "demo" "t1" 5 mimeTypeOpus false) fanoutDemo = fanoutDemo ∧
    (onTrackRecorder true "rec" "demo" "t1" 5 "video/H264" true).mkdirAll = some ("rec", 0o755) :=
  ⟨(recorder_selection true "rec" "demo" "t1" 5 mimeTypeOpus true fanoutDemo).1 rfl rfl rfl,
   (recorder_selection true "rec" "demo" "t1" 5 mimeTypeVP8 true fanoutDemo).2.1 rfl rfl (Or.inl rfl),
   ((recorder_selection true "rec" "demo" "t1" 5 "video/H264" true fanoutDemo).2.2.1 rfl
      (by decide) (by decide) (by decide)).1,
   ((recorder_selection true "rec" "demo" "t1" 5 mimeTypeOpus false fanoutDemo).2.2.2.1 rfl).1,
   ((recorder_selection true "rec" "demo" "t1" 5 mimeTypeOpus false fanoutDemo).2.2.2.1 rfl).2,
   (recorder_selection true "rec" "demo" "t1" 5 "video/H264" true fanoutDemo).2.2.2.2 rfl⟩

/-! ## Claim C7 -/

/-- Claim C7: for a datagram of n bytes successfully read by the read loop of
an open fanout, the per-room byte counter grows by n and the packet counter
by 1 whatever the parse outcome (the taps run before the parse), and a
datagram that fails to parse produces no recorder write and no subscriber
write. -/
theorem readLoop_counts_before_parse (parse : List Nat → Option (List Nat))
    (room : String) (f : FanoutState) (dgram : List Nat) (c : LoopCounters)
    (lg : LoopLog) (hopen : f.closed = false) :
    mget (readLoopStep parse room f dgram c lg).1.bytesTotal room =
      mget c.bytesTotal room + (dgram.length : Int) ∧
    mget (readLoopStep parse room f dgram c lg).1.pktsTotal room =
      mget c.pktsTotal room + 1 ∧
    (parse dgram = none → (readLoopStep parse room f dgram c lg).2 = lg) := by
  unfold readLoopStep
  rw [if_neg (by simp [hopen])]
  cases hp : parse dgram <;> simp [hp, mget_madd_self]

/-- Witness for C7: a 3-byte datagram that fails to parse. -/
theorem readLoop_counts_before_parse_witness :
    mget (readLoopStep (fun _ => none) "r" fanoutDemo [1, 2, 3] ⟨[], []⟩ ⟨[], []⟩).1.bytesTotal "r" =
      mget (⟨[], []⟩ : LoopCounters).bytesTotal "r" + (([1, 2, 3] : List Nat).length : Int) ∧
    mget (readLoopStep (fun _ => none) "r" fanoutDemo [1, 2, 3] ⟨[], []⟩ ⟨[], []⟩).1.pktsTotal "r" =
      mget (⟨[], []⟩ : LoopCounters).pktsTotal "r" + 1 ∧
    ((fun _ : List Nat => (none : Option (List Nat))) [1, 2, 3] = none →
      (readLoopStep (fun _ => none) "r" fanoutDemo [1, 2, 3] ⟨[], []⟩ ⟨[], []⟩).2 = ⟨[], []⟩) :=
  readLoop_counts_before_parse (fun _ => none) "r" fanoutDemo [1, 2, 3] ⟨[], []⟩ ⟨[], []⟩ rfl

/-! ## Claim C4 -/

/-- Claim C4: CloseRoom on a registered room returns true, removes the room
from the map and from the ListRooms snapshot, closes every fanout of the room
(each final fanout state is closed with its recorder closed), and invokes
Close on the publisher connection and on every subscriber connection;
CloseRoom on an unregistered name returns false and changes nothing. The
key-consistency hypothesis says each registered room carries its map key as
its name; the recorder hypothesis says no recorder was installed after a
fanout was already closed (the reachable states of the OnTrack handler). -/
theorem closeRoom_cleanup_complete (s : Sys) (name : String) (r : Room)
    (hr : alookup s.rooms name = some r)
    (hkey : ∀ p ∈ s.rooms, p.2.name = p.1)
    (hrec : ∀ p ∈ r.trackFeeds, p.2.closed = false ∨ p.2.recWriter = none) :
    (managerCloseRoom s name).2 = true ∧
    alookup (managerCloseRoom s name).1.rooms name = none ∧
    (∀ info ∈ listRooms (managerCloseRoom s name).1, info.name ≠ name) ∧
    (managerCloseRoom s name).1.feedLog =
      s.feedLog ++ (closeAllFeeds r.trackFeeds s.eff).1 ∧
    (∀ f ∈ (closeAllFeeds r.trackFeeds s.eff).1,
      f.closed = true ∧ f.recWriter = none) ∧
    (∀ pc, r.publisher = some pc → pc ∈ (managerCloseRoom s name).1.closedPCs) ∧
    (∀ pc ∈ r.subs, pc ∈ (managerCloseRoom s name).1.closedPCs) ∧
    (∀ s2 : Sys, ∀ name2 : String, alookup s2.rooms name2 = none →
      managerCloseRoom s2 name2 = (s2, false)) := by
  have hfin : (managerCloseRoom s name).1 = { s with
      rooms := aremove s.rooms name,
      roomsGauge := ((aremove s.rooms name).length : Int),
      eff := (closeAllFeeds r.trackFeeds s.eff).2,
      feedLog := s.feedLog ++ (closeAllFeeds r.trackFeeds s.eff).1,
      closedPCs := s.closedPCs ++ optToList r.publisher ++ r.subs } := by
    simp only [managerCloseRoom, hr]
    rw [roomClose_snd]
  have htrue : (managerCloseRoom s name).2 = true := by
    simp only [managerCloseRoom, hr]
  refine ⟨htrue, ?_, ?_, ?_, ?_, ?_, ?_, ?_⟩
  · rw [hfin]
    exact alookup_aremove_self s.rooms name
  · intro info hinfo
    rw [hfin] at hinfo
    simp only [listRooms, List.mem_map] at hinfo
    obtain ⟨p, hp, hpe⟩ := hinfo
    obtain ⟨hmem, hne⟩ := mem_aremove s.rooms name p hp
    have : info.name = p.1 := by rw [← hpe, roomStats, hkey p hmem]
    rw [this]
    exact hne
  · rw [hfin]
  · intro f hf
    exact ⟨closeAllFeeds_all_closed r.trackFeeds s.eff f hf,
      closeAllFeeds_all_rec_none r.trackFeeds s.eff hrec f hf⟩
  · intro pc hpc
    rw [hfin]
    simp [hpc, optToList]
  · intro pc hpc
    rw [hfin]
    simp [hpc, optToList]
  · intro s2 name2 h0
    simp [managerCloseRoom, h0]

/-- Witness for C4 at sysDemo, whose room demo has a publisher, one recorded
open fanout and two subscribers. -/
theorem closeRoom_cleanup_complete_witness :
    (managerCloseRoom sysDemo "demo").2 = true ∧
    alookup (managerCloseRoom sysDemo "demo").1.rooms "demo" = none ∧
    (∀ pc, roomDemo.publisher = some pc →
      pc ∈ (managerCloseRoom sysDemo "demo").1.closedPCs) ∧
    (∀ pc ∈ roomDemo.subs, pc ∈ (managerCloseRoom sysDemo "demo").1.closedPCs) :=
  have h := closeRoom_cleanup_complete sysDemo "demo" roomDemo rfl
    (by intro p hp; simp [sysDemo] at hp; simp [hp, roomDemo])
    (by intro p hp; simp [roomDemo] at hp; simp [hp, fanoutDemo])
  ⟨h.1, h.2.1, h.2.2.2.2.2.1, h.2.2.2.2.2.2.1⟩

/-! ## Claim C5 (amended) -/

/-- Claim C5 as amended: when pc is not the current publisher, closePublisher
leaves the whole system unchanged except that pc still has Close invoked on
it (the source closes pc unconditionally, so the call is not a complete
no-op); when pc is the current publisher, every fanout of the room is closed,
the feeds map is emptied, the publisher slot is cleared, pc is closed, and
the room stays registered in the Manager with its subscriber set unchanged
while gauges are untouched. -/
theorem closePublisher_amended (s : Sys) (name : String) (r : Room) (pc : PC)
    (hr : alookup s.rooms name = some r)
    (hnd : (s.rooms.map Prod.fst).Nodup) :
    (r.publisher ≠ some pc →
      sysClosePublisher s name pc = { s with closedPCs := s.closedPCs ++ [pc] }) ∧
    (r.publisher = some pc →
      (alookup (sysClosePublisher s name pc).rooms name).map Room.subs = some r.subs ∧
      (alookup (sysClosePublisher s name pc).rooms name).map Room.publisher = some none ∧
      (alookup (sysClosePublisher s name pc).rooms name).map Room.trackFeeds = some [] ∧
      (sysClosePublisher s name pc).closedPCs = s.closedPCs ++ [pc] ∧
      (sysClosePublisher s name pc).subsGauge = s.subsGauge ∧
      (sysClosePublisher s name pc).roomsGauge = s.roomsGauge ∧
      (sysClosePublisher s name pc).feedLog =
        s.feedLog ++ (closeAllFeeds r.trackFeeds s.eff).1 ∧
      (∀ f ∈ (closeAllFeeds r.trackFeeds s.eff).1, f.closed = true)) := by
  constructor
  · intro hne
    have hcp : closePublisherRoom r pc s.eff = (r, s.eff, []) := by
      unfold closePublisherRoom
      rw [if_neg hne]
    simp only [sysClosePublisher, hr, hcp]
    rw [aset_self s.rooms name r hnd hr]
    simp [closePC]
  · intro hpe
    have hcp : closePublisherRoom r pc s.eff =
        ({ r with trackFeeds := [], publisher := none },
          (closeAllFeeds r.trackFeeds s.eff).2,
          (closeAllFeeds r.trackFeeds s.eff).1) := by
      unfold closePublisherRoom
      rw [if_pos hpe]
    have hlook : alookup (sysClosePublisher s name pc).rooms name =
        some { r with trackFeeds := [], publisher := none } := by
      simp only [sysClosePublisher, hr, hcp, closePC]
      rw [alookup_aset, hr]
      rfl
    refine ⟨?_, ?_, ?_, ?_, ?_, ?_, ?_, ?_⟩
    · rw [hlook]; rfl
    · rw [hlook]; rfl
    · rw [hlook]; rfl
    · simp only [sysClosePublisher, hr, hcp, closePC]
    · simp only [sysClosePublisher, hr, hcp, closePC]
    · simp only [sysClosePublisher, hr, hcp, closePC]
    · simp only [sysClosePublisher, hr, hcp, closePC]
    · exact closeAllFeeds_all_closed r.trackFeeds s.eff

/-- Witness for C5 at sysDemo: peer connection 9 is not the publisher of
room demo (7 is); peer connection 7 is. -/
theorem closePublisher_amended_witness :
    (roomDemo.publisher ≠ some 9 →
      sysClosePublisher sysDemo "demo" 9 =
        { sysDemo with closedPCs := sysDemo.closedPCs ++ [9] }) ∧
    (roomDemo.publisher = some 7 →
      (alookup (sysClosePublisher sysDemo "demo" 7).rooms "demo").map Room.subs =
        some roomDemo.subs ∧
      (alookup (sysClosePublisher sysDemo "demo" 7).rooms "demo").map Room.publisher =
        some none ∧
      (sysClosePublisher sysDemo "demo" 7).closedPCs = sysDemo.closedPCs ++ [7]) :=
  ⟨(closePublisher_amended sysDemo "demo" roomDemo 9 rfl (by decide)).1,
   fun h7 =>
    have h := (closePublisher_amended sysDemo "demo" roomDemo 7 rfl (by decide)).2 h7
    ⟨h.1, h.2.1, h.2.2.2.1⟩⟩

/-! ## Claim C10 -/

lemma aset_append_single {α : Type} (l : List (String × α)) (k : String) (v : α)
    (h : alookup l k = none) : aset (l ++ [(k, v)]) k v = l ++ [(k, v)] := by
  induction l with
  | nil => simp [aset]
  | cons p rest ih =>
    by_cases hp : p.1 = k
    · simp [alookup, hp] at h
    · simp only [alookup, hp, if_false] at h
      have := ih h
      simp only [aset, List.cons_append, List.map_cons, if_neg hp] at this ⊢
      rw [this]

/-- Claim C10: a Publish or Subscribe call naming an unregistered room first
creates and registers the room and sets the rooms gauge to the new map size,
and only then validates the offer; so a malformed offer (offerValid and negOk
false model the PopulateFromSDP and negotiation failures) returns an error
while the fresh room stays registered and shows up in ListRooms with no
publisher, no tracks and no subscribers, the subscribers gauge untouched. -/
theorem room_registered_before_validation (s : Sys) (name : String) (pc : PC)
    (h0 : alookup s.rooms name = none) :
    (managerPublish s name false pc).2 = .negotiationFailed ∧
    (managerPublish s name false pc).1.rooms = s.rooms ++ [(name, newRoom name)] ∧
    (managerPublish s name false pc).1.roomsGauge = (s.rooms.length : Int) + 1 ∧
    roomStats (newRoom name) = ⟨name, false, 0, 0⟩ ∧
    (⟨name, false, 0, 0⟩ : RoomInfo) ∈ listRooms (managerPublish s name false pc).1 ∧
    (managerSubscribe s name false pc).2 = .negotiationFailed ∧
    (managerSubscribe s name false pc).1.rooms = s.rooms ++ [(name, newRoom name)] ∧
    (managerSubscribe s name false pc).1.roomsGauge = (s.rooms.length : Int) + 1 ∧
    (⟨name, false, 0, 0⟩ : RoomInfo) ∈ listRooms (managerSubscribe s name false pc).1 ∧
    (managerSubscribe s name false pc).1.subsGauge = s.subsGauge := by
  have hpub : roomPublish (newRoom name) false pc = ⟨newRoom name, .negotiationFailed, false⟩ := by
    rfl
  have hsubfail : roomSubscribe s.cfg (newRoom name) s.subsGauge false pc =
      ⟨newRoom name, s.subsGauge, .negotiationFailed, true, true⟩ := by
    unfold roomSubscribe
    rw [if_neg (by intro hc; simp [newRoom] at hc; omega)]
    rfl
  have hset : aset (s.rooms ++ [(name, newRoom name)]) name (newRoom name) =
      s.rooms ++ [(name, newRoom name)] := aset_append_single s.rooms name (newRoom name) h0
  have hlen : (((s.rooms ++ [(name, newRoom name)]).length : Nat) : Int) =
      (s.rooms.length : Int) + 1 := by
    simp
  have hmem : (⟨name, false, 0, 0⟩ : RoomInfo) ∈
      (s.rooms ++ [(name, newRoom name)]).map (fun p => roomStats p.2) := by
    exact List.mem_map.2
      ⟨(name, newRoom name), List.mem_append_right s.rooms (List.mem_singleton.2 rfl), rfl⟩
  refine ⟨?_, ?_, ?_, rfl, ?_, ?_, ?_, ?_, ?_, ?_⟩
  · simp only [managerPublish, getOrCreateRoom, h0, hpub]
  · simp only [managerPublish, getOrCreateRoom, h0, hpub]
    exact hset
  · simp only [managerPublish, getOrCreateRoom, h0, hpub]
    exact hlen
  · simp only [managerPublish, getOrCreateRoom, h0, hpub, listRooms]
    rw [hset]
    exact hmem
  · simp only [managerSubscribe, getOrCreateRoom, h0, hsubfail]
  · simp only [managerSubscribe, getOrCreateRoom, h0, hsubfail]
    exact hset
  · simp only [managerSubscribe, getOrCreateRoom, h0, hsubfail]
    exact hlen
  · simp only [managerSubscribe, getOrCreateRoom, h0, hsubfail, listRooms]
    rw [hset]
    exact hmem
  · simp only [managerSubscribe, getOrCreateRoom, h0, hsubfail]

/-- Witness for C10: room fresh is not registered in sysDemo. -/
theorem room_registered_before_validation_witness :
    (managerPublish sysDemo "fresh" false 11).2 = .negotiationFailed ∧
    (⟨"fresh", false, 0, 0⟩ : RoomInfo) ∈ listRooms (managerPublish sysDemo "fresh" false 11).1 ∧
    (managerSubscribe sysDemo "fresh" false 11).2 = .negotiationFailed ∧
    (⟨"fresh", false, 0, 0⟩ : RoomInfo) ∈ listRooms (managerSubscribe sysDemo "fresh" false 11).1 :=
  have h := room_registered_before_validation sysDemo "fresh" 11 rfl
  ⟨h.1, h.2.2.2.2.1, h.2.2.2.2.2.1, h.2.2.2.2.2.2.2.2.1⟩

/-! ## Claim C6 -/

lemma get?_append_left {α : Type} (l t : List α) :
    ∀ i, i < l.length → (l ++ t).get? i = l.get? i := by
  induction l with
  | nil => intro i hi; simp at hi
  | cons a rest ih =>
    intro i hi
    cases i with
    | zero => rfl
    | succ n =>
      show (rest ++ t).get? n = rest.get? n
      exact ih n (by simpa using hi)

lemma get?_concat_self {α : Type} (l : List α) (a : α) :
    (l ++ [a]).get? l.length = some a := by
  induction l with
  | nil => rfl
  | cons b rest ih => exact ih

lemma fanoutClones_length (st : Store) (pkt : RtpPacket) (k : Nat) :
    (fanoutClones st pkt k).2.length = k := by
  induction k generalizing st with
  | zero => rfl
  | succ n ih => simp [fanoutClones, ih]

lemma fanoutClones_cells_append (st : Store) (pkt : RtpPacket) (k : Nat) :
    ∃ t, (fanoutClones st pkt k).1.cells = st.cells ++ t := by
  induction k generalizing st with
  | zero => exact ⟨[], by simp [fanoutClones]⟩
  | succ n ih =>
    cases hpr : pkt.payloadRef with
    | none =>
      obtain ⟨t, ht⟩ := ih st
      refine ⟨t, ?_⟩
      simp only [fanoutClones, clonePacket, hpr]
      exact ht
    | some r =>
      obtain ⟨t, ht⟩ := ih ⟨st.cells ++ [st.readCell r]⟩
      refine ⟨st.readCell r :: t, ?_⟩
      simp only [fanoutClones, clonePacket, hpr, Store.alloc]
      rw [ht]
      simp

lemma fanoutClones_get (st : Store) (pkt : RtpPacket) (k r : Nat)
    (hpr : pkt.payloadRef = some r) :
    ∀ i, i < k → (fanoutClones st pkt k).2.get? i =
      some ⟨pkt.header, some (st.cells.length + i)⟩ := by
  induction k generalizing st with
  | zero => intro i hi; omega
  | succ n ih =>
    intro i hi
    simp only [fanoutClones, clonePacket, hpr, Store.alloc]
    cases i with
    | zero => rfl
    | succ m =>
      show (fanoutClones ⟨st.cells ++ [st.readCell r]⟩ pkt n).2.get? m = _
      rw [ih ⟨st.cells ++ [st.readCell r]⟩ m (by omega)]
      have harith : (⟨st.cells ++ [st.readCell r]⟩ : Store).cells.length + m =
          st.cells.length + (m + 1) := by
        simp
        omega
      rw [harith]

lemma readCell_of_cells_append (st2 : Store) (l t : List (List Nat))
    (h : st2.cells = l ++ t) (i : Nat) (hi : i < l.length) :
    st2.readCell i = (l.get? i).getD [] := by
  unfold Store.readCell
  rw [h, get?_append_left l t i hi]

lemma fanoutClones_read_new (st : Store) (pkt : RtpPacket) (k r : Nat)
    (hpr : pkt.payloadRef = some r) (hr : r < st.cells.length) :
    ∀ i, i < k → (fanoutClones st pkt k).1.readCell (st.cells.length + i) =
      st.readCell r := by
  induction k generalizing st with
  | zero => intro i hi; omega
  | succ n ih =>
    intro i hi
    simp only [fanoutClones, clonePacket, hpr, Store.alloc]
    cases i with
    | zero =>
      obtain ⟨t, ht⟩ := fanoutClones_cells_append ⟨st.cells ++ [st.readCell r]⟩ pkt n
      show (fanoutClones ⟨st.cells ++ [st.readCell r]⟩ pkt n).1.readCell
        (st.cells.length + 0) = st.readCell r
      rw [readCell_of_cells_append _ (st.cells ++ [st.readCell r]) t ht
        (st.cells.length + 0) (by simp)]
      rw [Nat.add_zero, get?_concat_self]
      rfl
    | succ m =>
      show (fanoutClones ⟨st.cells ++ [st.readCell r]⟩ pkt n).1.readCell
        (st.cells.length + (m + 1)) = st.readCell r
      have harith : st.cells.length + (m + 1) =
          (⟨st.cells ++ [st.readCell r]⟩ : Store).cells.length + m := by
        simp
        omega
      have hsame : (⟨st.cells ++ [st.readCell r]⟩ : Store).readCell r = st.readCell r := by
        rw [readCell_of_cells_append ⟨st.cells ++ [st.readCell r]⟩ st.cells
          [st.readCell r] rfl r hr]
        rfl
      rw [harith, ih ⟨st.cells ++ [st.readCell r]⟩ (by simp; omega) m (by omega), hsame]

/-- Claim C6 as amended: two distinct clones produced by the fan-out write
have by-value copies of every scalar header field and freshly allocated,
pairwise-distinct payload arrays whose content equals the parsed source
payload, so no mutation of one delivered payload (nor of a scalar header
field, which is a separate copy per clone) is observable on the other
delivered packet; the CSRC and extension references, however, are shared by
the struct copy, which is why the original claim fails for those header
fields (see the counterexample). -/
theorem payload_isolation_amended (st : Store) (pkt : RtpPacket) (k r i j : Nat)
    (ci cj : RtpPacket)
    (hpr : pkt.payloadRef = some r) (hr : r < st.cells.length)
    (hi : (fanoutClones st pkt k).2.get? i = some ci)
    (hj : (fanoutClones st pkt k).2.get? j = some cj)
    (hij : i ≠ j) :
    ci.header = pkt.header ∧
    ci.payloadRef ≠ cj.payloadRef ∧
    observePayload (fanoutClones st pkt k).1 ci = some (st.readCell r) ∧
    (∀ a v, ci.payloadRef = some a →
      observePayload ((fanoutClones st pkt k).1.writeCell a v) cj =
        observePayload (fanoutClones st pkt k).1 cj) := by
  have hik : i < k := by
    obtain ⟨hlt, _⟩ := List.get?_eq_some.1 hi
    rwa [fanoutClones_length st pkt k] at hlt
  have hjk : j < k := by
    obtain ⟨hlt, _⟩ := List.get?_eq_some.1 hj
    rwa [fanoutClones_length st pkt k] at hlt
  have hci : ci = ⟨pkt.header, some (st.cells.length + i)⟩ := by
    have := fanoutClones_get st pkt k r hpr i hik
    rw [hi] at this
    exact Option.some.inj this
  have hcj : cj = ⟨pkt.header, some (st.cells.length + j)⟩ := by
    have := fanoutClones_get st pkt k r hpr j hjk
    rw [hj] at this
    exact Option.some.inj this
  refine ⟨by rw [hci], ?_, ?_, ?_⟩
  · rw [hci, hcj]
    simp only [ne_eq, Option.some.injEq]
    omega
  · rw [hci]
    show some ((fanoutClones st pkt k).1.readCell (st.cells.length + i)) =
      some (st.readCell r)
    rw [fanoutClones_read_new st pkt k r hpr hr i hik]
  · intro a v ha
    rw [hci] at ha
    have haeq : a = st.cells.length + i := (Option.some.inj ha).symm
    rw [hcj]
    show some ((((fanoutClones st pkt k).1.cells.set a v).get? (st.cells.length + j)).getD []) =
      some ((((fanoutClones st pkt k).1.cells).get? (st.cells.length + j)).getD [])
    rw [List.get?_set_ne v ((fanoutClones st pkt k).1.cells) (by omega)]

/-- Witness for C6 at the demonstration store: two clones of pktDemo. -/
theorem payload_isolation_amended_witness :
    (⟨hdrDemo, some 2⟩ : RtpPacket).header = pktDemo.header ∧
    (⟨hdrDemo, some 2⟩ : RtpPacket).payloadRef ≠ cloneDemo1.payloadRef ∧
    observePayload (fanoutClones storeDemo pktDemo 2).1 ⟨hdrDemo, some 2⟩ =
      some (storeDemo.readCell 1) ∧
    (∀ a v, (⟨hdrDemo, some 2⟩ : RtpPacket).payloadRef = some a →
      observePayload ((fanoutClones storeDemo pktDemo 2).1.writeCell a v) cloneDemo1 =
        observePayload (fanoutClones storeDemo pktDemo 2).1 cloneDemo1) :=
  payload_isolation_amended storeDemo pktDemo 2 1 0 1 ⟨hdrDemo, some 2⟩ cloneDemo1
    rfl (by decide) rfl rfl (by decide)

/-- Claim C6 counterexample: the struct copy shares the CSRC backing array
between clones, so overwriting the CSRC array of the packet delivered to
subscriber A (cell 0, reached through its header csrcRef) changes the CSRC
words observed on the packet delivered to subscriber B from [5] to [9]: a
mutation of a header field of one delivered packet is observable on the
other, refuting the claim for header fields backed by slices. -/
theorem clone_shared_csrc_counterexample :
    (fanoutClones storeDemo pktDemo 2).2 = [⟨hdrDemo, some 2⟩, cloneDemo1] ∧
    (⟨hdrDemo, some 2⟩ : RtpPacket).header.csrcRef = cloneDemo1.header.csrcRef ∧
    observeCsrc (fanoutClones storeDemo pktDemo 2).1 cloneDemo1 = [5] ∧
    observeCsrc ((fanoutClones storeDemo pktDemo 2).1.writeCell
      (⟨hdrDemo, some 2⟩ : RtpPacket).header.csrcRef [9]) cloneDemo1 = [9] := by
  exact ⟨rfl, rfl, rfl, rfl⟩

end SFU
